import Mathlib

/-!
Shallow embedding of ScrollGuard (src/ScrollGuard.cpp): a Windows utility
that installs a low-level mouse hook and swallows wheel events when the
protected process owns the foreground window while the cursor is over a
window of a different process.

The OS state observed by the hook (foreground window, window under a
point) is modelled as explicit data passed to the embedded functions.
-/

namespace ScrollGuard

/-- `WM_MOUSEWHEEL` message constant. -/
def WM_MOUSEWHEEL : Nat := 0x020A

/-- `WM_MOUSEHWHEEL` message constant. -/
def WM_MOUSEHWHEEL : Nat := 0x020E

/-- `HC_ACTION` hook code constant. -/
def HC_ACTION : Int := 0

/-- Verdict of the low-level mouse hook: `swallow` models `return 1`
(block the event), `forward` models `return CallNextHookEx(...)`. -/
inductive Verdict where
  | swallow
  | forward
deriving DecidableEq, Repr

/-- A top-level window as seen by `PidFromPoint`: `pid` is the value
`GetWindowThreadProcessId` writes for this window (0 on failure),
`rootPid` is the pid of its `GA_ROOT` ancestor, or `none` when
`GetAncestor` returns null (then the code falls back to the window itself). -/
structure Win where
  pid : Nat
  rootPid : Option Nat
deriving DecidableEq, Repr

/-- Embeds `PidFromPoint` (src/ScrollGuard.cpp lines 112-120).
The argument is the result of `WindowFromPoint`: `none` when no window
occupies the point (the code then returns 0). -/
def PidFromPoint (w : Option Win) : Nat :=
  match w with
  | none => 0
  | some h =>
    match h.rootPid with
    | some p => p
    | none => h.pid

/-- The mutable globals of the program (src/ScrollGuard.cpp lines 33-35):
hook handle (`none` = nullptr), protected pid (0 = unset), running flag. -/
structure Globals where
  g_mouseHook : Option Nat
  g_targetPid : Nat
  g_running : Bool
deriving DecidableEq, Repr

/-- The two OS queries the hook makes for one event: the pid owning
the foreground window (`none` when `GetForegroundWindow` is null, in
which case `fgPid` keeps its initial value 0), and the window found
at the event's screen point. -/
structure OsState where
  foreground : Option Nat
  winAtPoint : Option Win
deriving DecidableEq, Repr

/-- The local `fgPid` computed at src/ScrollGuard.cpp lines 127-128:
initialised to 0, overwritten only when a foreground window exists. -/
def fgPid (os : OsState) : Nat :=
  match os.foreground with
  | none => 0
  | some p => p

/-- Embeds `LowLevelMouseProc` (src/ScrollGuard.cpp lines 123-141),
returning the forward/swallow verdict. -/
def LowLevelMouseProc (g : Globals) (os : OsState) (nCode : Int) (wParam : Nat) :
    Verdict :=
  if nCode = HC_ACTION ∧ g.g_targetPid ≠ 0 then
    if wParam = WM_MOUSEWHEEL ∨ wParam = WM_MOUSEHWHEEL then
      if fgPid os = g.g_targetPid then
        if PidFromPoint os.winAtPoint ≠ g.g_targetPid then
          Verdict.swallow
        else
          Verdict.forward
      else
        Verdict.forward
    else
      Verdict.forward
  else
    Verdict.forward

/-- An `AppEntry` (src/ScrollGuard.cpp lines 25-30): window handle,
owning pid, process display name, window title. -/
structure AppEntry where
  hwnd : Nat
  pid : Nat
  processName : String
  windowTitle : String
deriving DecidableEq, Repr

/-- A visible-window snapshot handed to the `EnumWindows` callback:
handle, visibility, owning pid (0 when `GetWindowThreadProcessId`
fails), and the window text that `GetWindowTextLengthW` /
`GetWindowTextW` report. -/
structure WinSnap where
  hwnd : Nat
  visible : Bool
  pid : Nat
  title : String
deriving DecidableEq, Repr

/-- The entry `EnumWindowsProc` builds for a kept window
(src/ScrollGuard.cpp lines 76-93): the title read from the window, with
the empty title replaced by the placeholder; the process name comes from
`GetProcessNameFromPid`, modelled as a pid-indexed map `f`. -/
def mkEntry (f : Nat → String) (w : WinSnap) : AppEntry :=
  { hwnd := w.hwnd, pid := w.pid, processName := f w.pid,
    windowTitle := if w.title = "" then "[No Title]" else w.title }

/-- Embeds one invocation of `EnumWindowsProc` (src/ScrollGuard.cpp
lines 62-95) on the accumulated vector `out`: skip invisible windows,
skip pid 0, skip pids already collected, otherwise append. -/
def EnumWindowsProc (f : Nat → String) (out : List AppEntry) (w : WinSnap) :
    List AppEntry :=
  if w.visible = false then out
  else if w.pid = 0 then out
  else if out.any (fun e => e.pid == w.pid) then out
  else out ++ [mkEntry f w]

/-- Embeds `_wcsicmp`: case-insensitive three-way comparison, lowering
each wide character and comparing code points. -/
def wcsicmp : List Char → List Char → Int
  | [], [] => 0
  | [], _ :: _ => -1
  | _ :: _, [] => 1
  | a :: as, b :: bs =>
    if a.toLower < b.toLower then -1
    else if b.toLower < a.toLower then 1
    else wcsicmp as bs

/-- The strict comparator passed to `std::sort`
(src/ScrollGuard.cpp lines 103-107): process name case-insensitively,
then window title case-insensitively. -/
def entryLt (a b : AppEntry) : Bool :=
  let c := wcsicmp a.processName.data b.processName.data
  if c ≠ 0 then decide (c < 0)
  else decide (wcsicmp a.windowTitle.data b.windowTitle.data < 0)

/-- The non-strict order induced by `entryLt`: the sense in which
`std::sort`'s output is sorted (`¬ comp b a` for `a` before `b`). -/
def entryLe (a b : AppEntry) : Bool := ! entryLt b a

/-- Embeds `EnumerateApps` (src/ScrollGuard.cpp lines 97-109): fold the
callback over the window snapshot in enumeration order, then sort by the
case-insensitive comparator. -/
def EnumerateApps (f : Nat → String) (ws : List WinSnap) : List AppEntry :=
  (ws.foldl (EnumWindowsProc f) []).mergeSort entryLe

/-- The first visible window owning pid `p`, in enumeration order: the
one whose data `EnumWindowsProc` keeps for `p`. -/
def firstWin (p : Nat) (ws : List WinSnap) : Option WinSnap :=
  ws.find? (fun w => w.visible && w.pid == p)

end ScrollGuard

namespace ScrollGuard

/-- C1: for a wheel event processed (`nCode = HC_ACTION`) while a target
is set, the verdict is swallow iff the foreground pid equals the target
and the pid resolved under the point differs from the target. -/
theorem wheel_verdict_characterisation (g : Globals) (os : OsState)
    (nCode : Int) (wParam : Nat)
    (ht : g.g_targetPid ≠ 0) (hn : nCode = HC_ACTION)
    (hw : wParam = WM_MOUSEWHEEL ∨ wParam = WM_MOUSEHWHEEL) :
    LowLevelMouseProc g os nCode wParam = Verdict.swallow ↔
      (fgPid os = g.g_targetPid ∧ PidFromPoint os.winAtPoint ≠ g.g_targetPid) := by
  unfold LowLevelMouseProc
  rw [if_pos ⟨hn, ht⟩, if_pos hw]
  by_cases hfg : fgPid os = g.g_targetPid
  · rw [if_pos hfg]
    by_cases hu : PidFromPoint os.winAtPoint ≠ g.g_targetPid
    · rw [if_pos hu]
      simp [hfg, hu]
    · rw [if_neg hu]
      simp [hfg, hu]
  · rw [if_neg hfg]
    simp [hfg]

/-- Witness for C1 at a concrete state: target 5 foreground, cursor over
pid 9's window, vertical wheel: swallowed. -/
theorem wheel_verdict_characterisation_witness :
    LowLevelMouseProc ⟨some 1, 5, true⟩ ⟨some 5, some ⟨9, some 9⟩⟩ 0 WM_MOUSEWHEEL
      = Verdict.swallow :=
  (wheel_verdict_characterisation ⟨some 1, 5, true⟩ ⟨some 5, some ⟨9, some 9⟩⟩ 0
    WM_MOUSEWHEEL (by decide) rfl (Or.inl rfl)).mpr (by decide)

/-- C2 counterexample: target 5 is foreground, the point resolves to no
window (`winAtPoint = none`), yet the wheel event is NOT forwarded —
the code swallows it, because `PidFromPoint` returns 0 ≠ 5. -/
theorem no_window_not_forwarded :
    ¬ (LowLevelMouseProc ⟨some 1, 5, true⟩ ⟨some 5, none⟩ 0 WM_MOUSEWHEEL
        = Verdict.forward) := by
  decide

/-- C2 amended: when the point-resolution query fails (no window under
the event's point) while the foreground pid equals the (nonzero) target,
the hook treats the failure as pid 0, which differs from the target, and
swallows the event; fail-open forwarding applies only to the
foreground-window query. -/
theorem no_window_swallowed (g : Globals) (os : OsState)
    (nCode : Int) (wParam : Nat)
    (ht : g.g_targetPid ≠ 0) (hn : nCode = HC_ACTION)
    (hw : wParam = WM_MOUSEWHEEL ∨ wParam = WM_MOUSEHWHEEL)
    (hfg : fgPid os = g.g_targetPid) (hpt : os.winAtPoint = none) :
    LowLevelMouseProc g os nCode wParam = Verdict.swallow := by
  unfold LowLevelMouseProc
  rw [if_pos ⟨hn, ht⟩, if_pos hw, if_pos hfg, if_pos]
  rw [hpt]
  simpa [PidFromPoint] using ht.symm

/-- Witness for the amended C2 at a concrete state. -/
theorem no_window_swallowed_witness :
    LowLevelMouseProc ⟨some 1, 5, true⟩ ⟨some 5, none⟩ 0 WM_MOUSEHWHEEL
      = Verdict.swallow :=
  no_window_swallowed ⟨some 1, 5, true⟩ ⟨some 5, none⟩ 0 WM_MOUSEHWHEEL
    (by decide) rfl (Or.inr rfl) rfl rfl

/-- C3: any event whose kind is neither vertical- nor horizontal-wheel is
forwarded, whatever the globals, foreground window, and cursor window. -/
theorem non_wheel_forwarded (g : Globals) (os : OsState)
    (nCode : Int) (wParam : Nat)
    (h1 : wParam ≠ WM_MOUSEWHEEL) (h2 : wParam ≠ WM_MOUSEHWHEEL) :
    LowLevelMouseProc g os nCode wParam = Verdict.forward := by
  unfold LowLevelMouseProc
  by_cases hc : nCode = HC_ACTION ∧ g.g_targetPid ≠ 0
  · rw [if_pos hc, if_neg]
    rintro (h | h)
    · exact h1 h
    · exact h2 h
  · rw [if_neg hc]

/-- Witness for C3: a `WM_MOUSEMOVE` (0x0200) event with a target set,
target foreground, and the cursor over another process: forwarded. -/
theorem non_wheel_forwarded_witness :
    LowLevelMouseProc ⟨some 1, 5, true⟩ ⟨some 5, some ⟨9, some 9⟩⟩ 0 0x0200
      = Verdict.forward :=
  non_wheel_forwarded ⟨some 1, 5, true⟩ ⟨some 5, some ⟨9, some 9⟩⟩ 0 0x0200
    (by decide) (by decide)

/-- C4: while no target is set (`g_targetPid = 0`), every event — wheel
events included — is forwarded, whatever the foreground and cursor state. -/
theorem no_target_forwarded (g : Globals) (os : OsState)
    (nCode : Int) (wParam : Nat) (ht : g.g_targetPid = 0) :
    LowLevelMouseProc g os nCode wParam = Verdict.forward := by
  unfold LowLevelMouseProc
  rw [if_neg]
  intro h
  exact h.2 ht

/-- Witness for C4: wheel event, no target set: forwarded. -/
theorem no_target_forwarded_witness :
    LowLevelMouseProc ⟨some 1, 0, true⟩ ⟨some 5, some ⟨9, some 9⟩⟩ 0 WM_MOUSEWHEEL
      = Verdict.forward :=
  no_target_forwarded ⟨some 1, 0, true⟩ ⟨some 5, some ⟨9, some 9⟩⟩ 0 WM_MOUSEWHEEL rfl

/-- C8: an invocation with `nCode ≠ HC_ACTION` is always forwarded, even
for a wheel event with a set target that owns the foreground window while
the cursor is over another process's window. -/
theorem non_action_forwarded (g : Globals) (os : OsState)
    (nCode : Int) (wParam : Nat) (hn : nCode ≠ HC_ACTION) :
    LowLevelMouseProc g os nCode wParam = Verdict.forward := by
  unfold LowLevelMouseProc
  rw [if_neg]
  intro h
  exact hn h.1

/-- Witness for C8: `nCode = 3` (`HC_NOREMOVE`), wheel event, target 5
foreground, cursor over pid 9: still forwarded. -/
theorem non_action_forwarded_witness :
    LowLevelMouseProc ⟨some 1, 5, true⟩ ⟨some 5, some ⟨9, some 9⟩⟩ 3 WM_MOUSEWHEEL
      = Verdict.forward :=
  non_action_forwarded ⟨some 1, 5, true⟩ ⟨some 5, some ⟨9, some 9⟩⟩ 3 WM_MOUSEWHEEL
    (by decide)

/-- C9: the verdict is a deterministic function of exactly five inputs —
hook code, event kind, foreground pid, pid resolved under the point, and
the stored target pid; it does not depend on any other state (hook handle,
running flag, or the shape of the window under the point beyond its
resolved pid). -/
theorem verdict_deterministic (g₁ g₂ : Globals) (os₁ os₂ : OsState)
    (n₁ n₂ : Int) (w₁ w₂ : Nat)
    (hn : n₁ = n₂) (hw : w₁ = w₂) (ht : g₁.g_targetPid = g₂.g_targetPid)
    (hf : fgPid os₁ = fgPid os₂)
    (hp : PidFromPoint os₁.winAtPoint = PidFromPoint os₂.winAtPoint) :
    LowLevelMouseProc g₁ os₁ n₁ w₁ = LowLevelMouseProc g₂ os₂ n₂ w₂ := by
  unfold LowLevelMouseProc
  rw [hn, hw, ht, hf, hp]

/-- Witness for C9: two states differing in hook handle, running flag and
the window structure under the point (different root chains, same resolved
pid 9) give the same verdict. -/
theorem verdict_deterministic_witness :
    LowLevelMouseProc ⟨some 1, 5, true⟩ ⟨some 5, some ⟨9, some 9⟩⟩ 0 WM_MOUSEWHEEL
      = LowLevelMouseProc ⟨none, 5, false⟩ ⟨some 5, some ⟨7, some 9⟩⟩ 0 WM_MOUSEWHEEL :=
  verdict_deterministic ⟨some 1, 5, true⟩ ⟨none, 5, false⟩
    ⟨some 5, some ⟨9, some 9⟩⟩ ⟨some 5, some ⟨7, some 9⟩⟩
    0 0 WM_MOUSEWHEEL WM_MOUSEWHEEL rfl rfl rfl rfl rfl

end ScrollGuard

namespace ScrollGuard

/-- `wcsicmp` only ever returns -1, 0 or 1. -/
theorem wcsicmp_vals : ∀ (a b : List Char),
    wcsicmp a b = -1 ∨ wcsicmp a b = 0 ∨ wcsicmp a b = 1
  | [], [] => Or.inr (Or.inl rfl)
  | [], _ :: _ => Or.inl rfl
  | _ :: _, [] => Or.inr (Or.inr rfl)
  | a :: as, b :: bs => by
    unfold wcsicmp
    by_cases h1 : a.toLower < b.toLower
    · simp [h1]
    · by_cases h2 : b.toLower < a.toLower
      · simp [h1, h2]
      · simpa [h1, h2] using wcsicmp_vals as bs

/-- Swapping the arguments of `wcsicmp` negates the result. -/
theorem wcsicmp_swap : ∀ (a b : List Char), wcsicmp b a = - wcsicmp a b
  | [], [] => by simp [wcsicmp]
  | [], _ :: _ => by simp [wcsicmp]
  | _ :: _, [] => by simp [wcsicmp]
  | a :: as, b :: bs => by
    unfold wcsicmp
    by_cases h1 : a.toLower < b.toLower
    · simp [h1, lt_asymm h1]
    · by_cases h2 : b.toLower < a.toLower
      · simp [h1, h2]
      · simp [h1, h2, wcsicmp_swap as bs]

/-- Lists comparing equal under `wcsicmp` compare the same way against
any third list. -/
theorem wcsicmp_eq_congr : ∀ (a b : List Char), wcsicmp a b = 0 →
    ∀ (c : List Char), wcsicmp a c = wcsicmp b c
  | [], [], _, _ => rfl
  | [], _ :: _, h, _ => by simp [wcsicmp] at h
  | _ :: _, [], h, _ => by simp [wcsicmp] at h
  | a :: as, b :: bs, h, c => by
    unfold wcsicmp at h
    by_cases h1 : a.toLower < b.toLower
    · simp [h1] at h
    · by_cases h2 : b.toLower < a.toLower
      · simp [h1, h2] at h
      · have hab : a.toLower = b.toLower :=
          le_antisymm (le_of_not_lt h2) (le_of_not_lt h1)
        have hrec := wcsicmp_eq_congr as bs (by simpa [h1, h2] using h)
        cases c with
        | nil => rfl
        | cons c0 cs =>
          unfold wcsicmp
          rw [hab, hrec cs]

/-- `wcsicmp` equality on the right: comparing against either of two
equal-comparing lists gives the same result. -/
theorem wcsicmp_eq_congr_right (a b c : List Char) (h : wcsicmp b c = 0) :
    wcsicmp a b = wcsicmp a c := by
  have h1 : wcsicmp a b = - wcsicmp b a := by rw [wcsicmp_swap a b]; ring
  have h2 : wcsicmp a c = - wcsicmp c a := by rw [wcsicmp_swap a c]; ring
  rw [h1, h2, wcsicmp_eq_congr b c h a]

/-- Strict `wcsicmp` comparisons chain transitively. -/
theorem wcsicmp_lt_trans : ∀ (a b c : List Char),
    wcsicmp a b = -1 → wcsicmp b c = -1 → wcsicmp a c = -1
  | [], [], _, hab, _ => by simp [wcsicmp] at hab
  | [], _ :: _, [], _, hbc => by simp [wcsicmp] at hbc
  | [], _ :: _, _ :: _, _, _ => rfl
  | _ :: _, [], _, hab, _ => by simp [wcsicmp] at hab
  | _ :: _, _ :: _, [], _, hbc => by simp [wcsicmp] at hbc
  | a :: as, b :: bs, c :: cs, hab, hbc => by
    unfold wcsicmp at hab hbc ⊢
    by_cases h1 : a.toLower < b.toLower
    · by_cases h3 : b.toLower < c.toLower
      · rw [if_pos (lt_trans h1 h3)]
      · by_cases h4 : c.toLower < b.toLower
        · simp [h3, h4] at hbc
        · have hbc' : b.toLower = c.toLower :=
            le_antisymm (le_of_not_lt h4) (le_of_not_lt h3)
          rw [if_pos (by rw [← hbc']; exact h1)]
    · by_cases h2 : b.toLower < a.toLower
      · simp [h1, h2] at hab
      · have hab' : a.toLower = b.toLower :=
          le_antisymm (le_of_not_lt h2) (le_of_not_lt h1)
        by_cases h3 : b.toLower < c.toLower
        · rw [if_pos (by rw [hab']; exact h3)]
        · by_cases h4 : c.toLower < b.toLower
          · simp [h3, h4] at hbc
          · have hbc' : b.toLower = c.toLower :=
              le_antisymm (le_of_not_lt h4) (le_of_not_lt h3)
            have hac : a.toLower = c.toLower := hab'.trans hbc'
            rw [if_neg (by rw [hac]; exact lt_irrefl _),
              if_neg (by rw [hac]; exact lt_irrefl _)]
            exact wcsicmp_lt_trans as bs cs (by simpa [h1, h2] using hab)
              (by simpa [h3, h4] using hbc)

end ScrollGuard

namespace ScrollGuard

/-- Unfolds `entryLt` into the two `wcsicmp` outcomes it tests. -/
theorem entryLt_iff (a b : AppEntry) :
    entryLt a b = true ↔
      (wcsicmp a.processName.data b.processName.data = -1 ∨
       (wcsicmp a.processName.data b.processName.data = 0 ∧
        wcsicmp a.windowTitle.data b.windowTitle.data = -1)) := by
  rcases wcsicmp_vals a.processName.data b.processName.data with h | h | h <;>
    rcases wcsicmp_vals a.windowTitle.data b.windowTitle.data with h2 | h2 | h2 <;>
      simp [entryLt, h, h2]

/-- Unfolds `entryLe` (the negation of the swapped comparator). -/
theorem entryLe_iff (a b : AppEntry) :
    entryLe a b = true ↔
      (wcsicmp a.processName.data b.processName.data = -1 ∨
       (wcsicmp a.processName.data b.processName.data = 0 ∧
        wcsicmp a.windowTitle.data b.windowTitle.data ≠ 1)) := by
  have hs1 := wcsicmp_swap a.processName.data b.processName.data
  have hs2 := wcsicmp_swap a.windowTitle.data b.windowTitle.data
  rw [entryLe, Bool.not_eq_true', ← Bool.not_eq_true, entryLt_iff, hs1, hs2]
  rcases wcsicmp_vals a.processName.data b.processName.data with h | h | h <;>
    rcases wcsicmp_vals a.windowTitle.data b.windowTitle.data with h2 | h2 | h2 <;>
      simp [h, h2]

/-- The comparator-induced order is transitive. -/
theorem entryLe_trans (a b c : AppEntry)
    (hab : entryLe a b = true) (hbc : entryLe b c = true) :
    entryLe a c = true := by
  rw [entryLe_iff] at hab hbc ⊢
  rcases hab with h | ⟨h, ht⟩ <;> rcases hbc with h' | ⟨h', ht'⟩
  · exact Or.inl (wcsicmp_lt_trans _ _ _ h h')
  · exact Or.inl (by rw [← wcsicmp_eq_congr_right _ _ _ h']; exact h)
  · exact Or.inl (by rw [wcsicmp_eq_congr _ _ h]; exact h')
  · refine Or.inr ⟨by rw [wcsicmp_eq_congr _ _ h]; exact h', ?_⟩
    rcases wcsicmp_vals a.windowTitle.data b.windowTitle.data with h1 | h1 | h1
    · rcases wcsicmp_vals b.windowTitle.data c.windowTitle.data with h2 | h2 | h2
      · have := wcsicmp_lt_trans _ _ _ h1 h2
        omega
      · have := wcsicmp_eq_congr_right a.windowTitle.data _ _ h2
        omega
      · exact absurd h2 ht'
    · have := wcsicmp_eq_congr _ _ h1 c.windowTitle.data
      omega
    · exact absurd h1 ht

end ScrollGuard

namespace ScrollGuard

/-- The comparator-induced order is total. -/
theorem entryLe_total (a b : AppEntry) : (entryLe a b || entryLe b a) = true := by
  rw [Bool.or_eq_true, entryLe_iff, entryLe_iff]
  have hs1 := wcsicmp_swap a.processName.data b.processName.data
  have hs2 := wcsicmp_swap a.windowTitle.data b.windowTitle.data
  rcases wcsicmp_vals a.processName.data b.processName.data with h | h | h <;>
    rcases wcsicmp_vals a.windowTitle.data b.windowTitle.data with h2 | h2 | h2 <;>
      simp [h, h2, hs1, hs2]

/-- The `pid` of a built entry is the snapshot's `pid`. -/
theorem mkEntry_pid (f : Nat → String) (w : WinSnap) : (mkEntry f w).pid = w.pid :=
  rfl

/-- A window failing the `firstWin` test does not affect the lookup. -/
theorem firstWin_cons_skip (p : Nat) (w : WinSnap) (ws : List WinSnap)
    (h : (w.visible && w.pid == p) = false) :
    firstWin p (w :: ws) = firstWin p ws := by
  unfold firstWin
  rw [List.find?_cons_of_neg]
  simp [h]

/-- A window passing the `firstWin` test is the lookup result. -/
theorem firstWin_cons_hit (p : Nat) (w : WinSnap) (ws : List WinSnap)
    (h : (w.visible && w.pid == p) = true) :
    firstWin p (w :: ws) = some w := by
  unfold firstWin
  exact List.find?_cons_of_pos _ h

end ScrollGuard

namespace ScrollGuard

/-- Membership in the `EnumWindows` fold: an entry is either already in
the accumulator, or its pid is new to the accumulator and it was built
from the first visible window carrying that (nonzero) pid. -/
theorem mem_enumFold (f : Nat → String) (ws : List WinSnap) :
    ∀ (acc : List AppEntry) (e : AppEntry),
      e ∈ ws.foldl (EnumWindowsProc f) acc ↔
        e ∈ acc ∨ ((∀ a ∈ acc, a.pid ≠ e.pid) ∧ e.pid ≠ 0 ∧
          ∃ w, firstWin e.pid ws = some w ∧ e = mkEntry f w) := by
  induction ws with
  | nil =>
    intro acc e
    simp [firstWin]
  | cons w ws ih =>
    intro acc e
    rw [List.foldl_cons, ih (EnumWindowsProc f acc w) e]
    by_cases hv : w.visible = false
    · have hstep : EnumWindowsProc f acc w = acc := by
        unfold EnumWindowsProc
        rw [if_pos hv]
      rw [hstep, firstWin_cons_skip e.pid w ws (by simp [hv])]
    · have hv' : w.visible = true := by
        revert hv
        cases w.visible <;> simp
      by_cases hp : w.pid = 0
      · have hstep : EnumWindowsProc f acc w = acc := by
          unfold EnumWindowsProc
          rw [if_neg hv, if_pos hp]
        rw [hstep]
        have hskip : e.pid ≠ 0 → firstWin e.pid (w :: ws) = firstWin e.pid ws := by
          intro h2
          apply firstWin_cons_skip
          have hbe : (w.pid == e.pid) = false := by
            simp [hp]
            omega
          simp [hbe]
        constructor
        · rintro (h | ⟨h1, h2, hx⟩)
          · exact Or.inl h
          · exact Or.inr ⟨h1, h2, by rw [hskip h2]; exact hx⟩
        · rintro (h | ⟨h1, h2, hx⟩)
          · exact Or.inl h
          · exact Or.inr ⟨h1, h2, by rw [← hskip h2]; exact hx⟩
      · by_cases hd : acc.any (fun a => a.pid == w.pid) = true
        · have hstep : EnumWindowsProc f acc w = acc := by
            unfold EnumWindowsProc
            rw [if_neg hv, if_neg hp, if_pos hd]
          rw [hstep]
          obtain ⟨a0, ha0, ha0p⟩ := List.any_eq_true.mp hd
          have ha0p' : a0.pid = w.pid := by simpa using ha0p
          by_cases hew : e.pid = w.pid
          · constructor
            · rintro (h | ⟨h1, h2, hx⟩)
              · exact Or.inl h
              · exact absurd (ha0p'.trans hew.symm) (h1 a0 ha0)
            · rintro (h | ⟨h1, h2, hx⟩)
              · exact Or.inl h
              · exact absurd (ha0p'.trans hew.symm) (h1 a0 ha0)
          · have hbe : (w.pid == e.pid) = false := by
              simp
              omega
            rw [firstWin_cons_skip e.pid w ws (by simp [hbe])]
        · have hstep : EnumWindowsProc f acc w = acc ++ [mkEntry f w] := by
            unfold EnumWindowsProc
            rw [if_neg hv, if_neg hp, if_neg hd]
          rw [hstep]
          have hnodup : ∀ a ∈ acc, a.pid ≠ w.pid := by
            intro a ha hcontra
            apply hd
            rw [List.any_eq_true]
            exact ⟨a, ha, by simp [hcontra]⟩
          by_cases hew : e.pid = w.pid
          · have hhit : firstWin e.pid (w :: ws) = some w := by
              apply firstWin_cons_hit
              have hbe : (w.pid == e.pid) = true := by simp [hew]
              simp [hv', hbe]
            constructor
            · rintro (hmem | ⟨h1, h2, hx⟩)
              · rcases List.mem_append.mp hmem with h | h
                · exact Or.inl h
                · have he : e = mkEntry f w := by simpa using h
                  refine Or.inr ⟨?_, ?_, w, hhit, he⟩
                  · intro a ha
                    have := hnodup a ha
                    omega
                  · omega
              · exfalso
                have hm : mkEntry f w ∈ acc ++ [mkEntry f w] :=
                  List.mem_append_right _ (by simp)
                have hcontra := h1 _ hm
                rw [mkEntry_pid] at hcontra
                exact hcontra hew.symm
            · rintro (hmem | ⟨h1, h2, hx⟩)
              · exact Or.inl (List.mem_append_left _ hmem)
              · obtain ⟨w', hw', he⟩ := hx
                rw [hhit] at hw'
                obtain rfl : w = w' := by injection hw'
                exact Or.inl (List.mem_append_right _ (by simp [he]))
          · have hbe : (w.pid == e.pid) = false := by
              simp
              omega
            rw [firstWin_cons_skip e.pid w ws (by simp [hbe])]
            have hnemk : e ≠ mkEntry f w := by
              intro h
              apply hew
              rw [h, mkEntry_pid]
            constructor
            · rintro (hmem | ⟨h1, h2, hx⟩)
              · rcases List.mem_append.mp hmem with h | h
                · exact Or.inl h
                · exact absurd (by simpa using h) hnemk
              · exact Or.inr ⟨fun a ha => h1 a (List.mem_append_left _ ha), h2, hx⟩
            · rintro (hmem | ⟨h1, h2, hx⟩)
              · exact Or.inl (List.mem_append_left _ hmem)
              · refine Or.inr ⟨?_, h2, hx⟩
                intro a ha
                rcases List.mem_append.mp ha with h | h
                · exact h1 a h
                · have haw : a = mkEntry f w := by simpa using h
                  rw [haw, mkEntry_pid]
                  omega

end ScrollGuard

namespace ScrollGuard

/-- The `EnumWindows` fold never introduces a duplicate pid. -/
theorem pairwise_enumFold (f : Nat → String) (ws : List WinSnap) :
    ∀ acc : List AppEntry, acc.Pairwise (fun a b => a.pid ≠ b.pid) →
      (ws.foldl (EnumWindowsProc f) acc).Pairwise (fun a b => a.pid ≠ b.pid) := by
  induction ws with
  | nil =>
    intro acc h
    exact h
  | cons w ws ih =>
    intro acc h
    rw [List.foldl_cons]
    apply ih
    unfold EnumWindowsProc
    split
    · exact h
    · split
      · exact h
      · split
        · exact h
        · rename_i h1 h2 h3
          rw [List.pairwise_append]
          refine ⟨h, by simp, ?_⟩
          intro a ha b hb
          have hb' : b = mkEntry f w := by simpa using hb
          rw [hb', mkEntry_pid]
          intro hcontra
          apply h3
          rw [List.any_eq_true]
          exact ⟨a, ha, by simp [hcontra]⟩

/-- C5: for any window snapshot and process-name map, the enumerator's
output has pairwise distinct pids, contains exactly the entries built
from the first visible window of each nonzero pid, and is sorted by the
case-insensitive (process name, window title) comparator. -/
theorem enumerate_one_per_pid_sorted (f : Nat → String) (ws : List WinSnap) :
    ((EnumerateApps f ws).Pairwise fun a b => a.pid ≠ b.pid) ∧
    (∀ e, e ∈ EnumerateApps f ws ↔
      e.pid ≠ 0 ∧ ∃ w, firstWin e.pid ws = some w ∧ e = mkEntry f w) ∧
    ((EnumerateApps f ws).Pairwise fun a b => entryLe a b = true) := by
  refine ⟨?_, ?_, ?_⟩
  · have hperm := List.mergeSort_perm (ws.foldl (EnumWindowsProc f) []) entryLe
    rw [EnumerateApps]
    exact (hperm.pairwise_iff fun h => Ne.symm h).mpr
      (pairwise_enumFold f ws [] (by simp))
  · intro e
    rw [EnumerateApps, List.mem_mergeSort, mem_enumFold f ws [] e]
    simp
  · rw [EnumerateApps]
    exact List.sorted_mergeSort (fun a b c => entryLe_trans a b c)
      (fun a b => entryLe_total a b) _

/-- Witness for C5 on a concrete one-window snapshot: the characterising
membership property places the built entry in the output. -/
theorem enumerate_one_per_pid_sorted_witness :
    (⟨1, 7, "p", "t"⟩ : AppEntry) ∈ EnumerateApps (fun _ => "p") [⟨1, true, 7, "t"⟩] :=
  ((enumerate_one_per_pid_sorted (fun _ => "p") [⟨1, true, 7, "t"⟩]).2.1
    ⟨1, 7, "p", "t"⟩).mpr
    ⟨by decide, ⟨1, true, 7, "t"⟩, rfl, rfl⟩

/-- C10: every entry the enumerator returns has a nonzero pid and a
nonempty title. -/
theorem enumerate_entries_wf (f : Nat → String) (ws : List WinSnap)
    (e : AppEntry) (he : e ∈ EnumerateApps f ws) :
    e.pid ≠ 0 ∧ e.windowTitle ≠ "" := by
  rw [EnumerateApps, List.mem_mergeSort, mem_enumFold f ws [] e] at he
  rcases he with h | ⟨-, h2, w, -, he⟩
  · simp at h
  · refine ⟨h2, ?_⟩
    rw [he]
    show (if w.title = "" then "[No Title]" else w.title) ≠ ""
    split
    · decide
    · rename_i hti
      exact hti

/-- Witness for C10 on a concrete one-window snapshot. -/
theorem enumerate_entries_wf_witness :
    (⟨1, 7, "p", "t"⟩ : AppEntry).pid ≠ 0 ∧
    (⟨1, 7, "p", "t"⟩ : AppEntry).windowTitle ≠ "" :=
  enumerate_entries_wf (fun _ => "p") [⟨1, true, 7, "t"⟩] ⟨1, 7, "p", "t"⟩
    (by
      rw [EnumerateApps,
        show List.foldl (EnumWindowsProc (fun _ => "p")) [] [⟨1, true, 7, "t"⟩]
          = [⟨1, 7, "p", "t"⟩] from rfl,
        List.mergeSort_singleton]
      exact List.mem_singleton_self _)

end ScrollGuard

namespace ScrollGuard

/-- C6 counterexample: a visible window of pid 7 whose title is the
single space " " — nonempty but whitespace-only — is enumerated with its
title kept verbatim, not replaced by the placeholder: the code only
substitutes "[No Title]" when the title is empty. -/
theorem whitespace_title_kept :
    (" " : String).data.all Char.isWhitespace = true ∧
    EnumerateApps (fun _ => "p") [⟨1, true, 7, " "⟩] = [⟨1, 7, "p", " "⟩] ∧
    (" " : String) ≠ "[No Title]" := by
  refine ⟨rfl, ?_, by decide⟩
  rw [EnumerateApps,
    show List.foldl (EnumWindowsProc (fun _ => "p")) [] [⟨1, true, 7, " "⟩]
      = [⟨1, 7, "p", " "⟩] from rfl,
    List.mergeSort_singleton]

/-- C6 amended: the enumerator replaces a window title with "[No Title]"
exactly when the title is the empty string; a nonempty title — even one
consisting only of whitespace — is kept verbatim. -/
theorem title_placeholder_iff_empty (f : Nat → String) (ws : List WinSnap)
    (e : AppEntry) (he : e ∈ EnumerateApps f ws) :
    ∃ w, firstWin e.pid ws = some w ∧
      e.windowTitle = (if w.title = "" then "[No Title]" else w.title) := by
  rw [EnumerateApps, List.mem_mergeSort, mem_enumFold f ws [] e] at he
  rcases he with h | ⟨-, -, w, hw, he⟩
  · simp at h
  · exact ⟨w, hw, by rw [he]; rfl⟩

/-- Witness for the amended C6 at the whitespace-titled window: the
entry's title is the ite outcome, here the original " ". -/
theorem title_placeholder_iff_empty_witness :
    ∃ w, firstWin (⟨1, 7, "p", " "⟩ : AppEntry).pid [⟨1, true, 7, " "⟩] = some w ∧
      (⟨1, 7, "p", " "⟩ : AppEntry).windowTitle
        = (if w.title = "" then "[No Title]" else w.title) :=
  title_placeholder_iff_empty (fun _ => "p") [⟨1, true, 7, " "⟩] ⟨1, 7, "p", " "⟩
    (by
      rw [EnumerateApps,
        show List.foldl (EnumWindowsProc (fun _ => "p")) [] [⟨1, true, 7, " "⟩]
          = [⟨1, 7, "p", " "⟩] from rfl,
        List.mergeSort_singleton]
      exact List.mem_singleton_self _)

/-- Console selection input: `invalid` models a failed
`std::wcin >> choice` extraction (non-numeric input); `num n` a
successfully extracted `size_t` value. -/
inductive MenuInput where
  | invalid
  | num (n : Nat)
deriving DecidableEq, Repr

/-- The external interactions of one `wmain` run: the enumerated
candidate list, the menu input (read only when the list is nonempty),
the pid `HoverSelectPid` resolves (0 when no window is under the
cursor), and whether `SetWindowsHookExW` succeeds. -/
structure RunEnv where
  apps : List AppEntry
  input : MenuInput
  hoverPid : Nat
  hookInstallOk : Bool
deriving Repr

/-- The tail of `wmain` once a target pid is chosen (src/ScrollGuard.cpp
lines 209-227): hook installation failure returns 3; otherwise the
message loop pumps until a termination signal clears `g_running` and the
run returns 0. -/
def armAndRun (env : RunEnv) : Int :=
  if env.hookInstallOk then 0 else 3

/-- Embeds the exit-code behaviour of `wmain` (src/ScrollGuard.cpp
lines 171-228): menu selection (invalid input 2, sentinel 0 for
hover-select which fails with 2 when no pid resolves, index inside
`1..N` accepted, anything else 2), then arm and run. -/
def wmain (env : RunEnv) : Int :=
  if env.apps ≠ [] then
    match env.input with
    | MenuInput.invalid => 2
    | MenuInput.num choice =>
      if choice = 0 then
        (if env.hoverPid = 0 then 2 else armAndRun env)
      else if 1 ≤ choice ∧ choice ≤ env.apps.length then armAndRun env
      else 2
  else if env.hoverPid = 0 then 2 else armAndRun env

/-- Follows the claim's words (spec §6, exit codes): selection fails on
non-numeric menu input, on an index outside `1..N` other than the
sentinel 0, and on a hover-select that resolves no window. -/
def specSelectionFails (env : RunEnv) : Bool :=
  if env.apps ≠ [] then
    match env.input with
    | MenuInput.invalid => true
    | MenuInput.num choice =>
      if choice = 0 then env.hoverPid == 0
      else decide (¬ (1 ≤ choice ∧ choice ≤ env.apps.length))
  else env.hoverPid == 0

/-- C7: the process exit code is exactly 2 whenever selection fails,
exactly 3 when selection succeeds but the mouse-hook installation fails,
and exactly 0 on a clean signal-driven shutdown after a successful
installation. -/
theorem wmain_exit_codes (env : RunEnv) :
    wmain env =
      (if specSelectionFails env then 2
       else if env.hookInstallOk then 0 else 3) := by
  rcases env with ⟨apps, input, hover, hook⟩
  cases input with
  | invalid =>
    by_cases ha : apps = [] <;>
      simp [wmain, specSelectionFails, armAndRun, ha]
  | num n =>
    by_cases ha : apps = [] <;> by_cases hn : n = 0 <;>
      simp [wmain, specSelectionFails, armAndRun, ha, hn] <;>
        split_ifs <;> first | rfl | omega

end ScrollGuard
